import Mathlib

/-!
Shallow embedding of the task scheduling and execution engine of the Mia
repository: `task_scheduler.py` (class TaskScheduler) and `scheduler.py`
(class Scheduler), together with the fragments of `data_storage.py`
(class DataStorage) and `error_logger.py` (class ErrorLogger) that the
engine calls into.

Modelling conventions:
- `datetime` timestamps and `timedelta` intervals are natural numbers;
  each call of the scheduler loop body (one tick) receives its observed
  `datetime.now()` value as an explicit `now : Nat` parameter.
- Python dicts are association lists `List (String × α)` in insertion
  order: assignment to an existing key replaces the value in place,
  assignment to a fresh key appends, `del` removes the key
  (`dictSet` / `dictDel` below).
- Python exceptions are values of `PyError`; a `try`-body that can raise
  returns `State × Option PyError`, and the `except` clause consumes the
  `Option`.
- Effects on external collaborators are recorded in the state:
  `error_log` collects the arguments of `ErrorLogger.log_error` calls,
  `task_logs` the records handed to `DataStorage.store_task_log`,
  `output` the lines printed with `print`. Two pieces of
  instrumentation record observable events: `exec_trace` gets one entry
  each time `Scheduler.execute_task` is entered (a task handed to the
  executor) and `fired` gets one entry each time a periodic task's
  `task_func` is invoked.
- A periodic task's `task_func` is an opaque Python callable; the only
  behaviour of it the scheduler can observe is whether the invocation
  raises, modelled by the Boolean field `task_func_raises`.
- Status strings ("scheduled", "overdue", "completed") are kept as the
  string literals the Python code assigns.
- The apostrophe characters that the Python f-strings place around task
  names are written with the escape \x27.
-/

namespace Mia

/-- A one-shot task as stored by `TaskScheduler.schedule_task`
(task_scheduler.py lines 18-22): run_time, details, status. -/
structure Task where
  run_time : Nat
  details : List (String × String)
  status : String
deriving DecidableEq, Repr

/-- Python exception values that arise in the engine. -/
inductive PyError where
  /-- AttributeError: referenced attribute is not defined on the object. -/
  | attributeError (attr : String)
  /-- KeyError raised by indexing a dict with a missing key. -/
  | keyError (key : String)
  /-- a fault raised by invoking a periodic task's `task_func`. -/
  | actionError (task : String)
deriving DecidableEq, Repr

/-- One entry of `Scheduler.periodic_tasks` (scheduler.py lines 60-65):
task_func, interval, last_run, details. The callable `task_func` is
modelled by the observable `task_func_raises`. -/
structure PeriodicInfo where
  interval : Nat
  last_run : Nat
  task_func_raises : Bool
  details : List (String × String)
deriving DecidableEq, Repr

/-- The record built by `Scheduler.log_task_execution`
(scheduler.py lines 90-94): task_name, execution_time, periodic. -/
structure TaskLog where
  task_name : String
  execution_time : Nat
  periodic : Bool
deriving DecidableEq, Repr

/-- Python dict assignment `d[k] = v`: replace in place if the key is
present, else append (insertion order is preserved). -/
def dictSet {α : Type} (l : List (String × α)) (k : String) (v : α) :
    List (String × α) :=
  if (l.lookup k).isSome then
    l.map (fun p => if p.1 = k then (k, v) else p)
  else
    l ++ [(k, v)]

/-- Python `del d[k]`: remove the entry with key k. -/
def dictDel {α : Type} (l : List (String × α)) (k : String) :
    List (String × α) :=
  l.filter (fun p => p.1 ≠ k)

/-! ### Result strings (the Python f-strings, apostrophes as \x27) -/

/-- task_scheduler.py line 23 (strftime rendered as the numeric time). -/
def scheduledMsg (n : String) (rt : Nat) : String :=
  "Task \x27" ++ n ++ "\x27 scheduled for " ++ toString rt ++ "."

/-- task_scheduler.py line 33. -/
def successMsg (n : String) : String :=
  "Task \x27" ++ n ++ "\x27 executed successfully."

/-- task_scheduler.py line 34: the single string returned both when the
task does not exist and when it is no longer in status "scheduled". -/
def notFoundOrCompletedMsg (n : String) : String :=
  "Task \x27" ++ n ++ "\x27 not found or already completed."

/-- task_scheduler.py line 54. -/
def canceledMsg (n : String) : String :=
  "Task \x27" ++ n ++ "\x27 has been canceled."

/-- task_scheduler.py line 55. -/
def notFoundMsg (n : String) : String :=
  "Task \x27" ++ n ++ "\x27 not found."

/-- scheduler.py line 120. -/
def periodicCanceledMsg (n : String) : String :=
  "Periodic task \x27" ++ n ++ "\x27 has been canceled."

/-- scheduler.py line 86: the message handed to
`ErrorLogger.log_error` from `Scheduler.execute_task`. -/
def execErrorCtx (n : String) : String :=
  "Execution Error - " ++ n

/-! ### TaskScheduler (task_scheduler.py) -/

/-- `TaskScheduler.schedule_task` (lines 14-23): store the task under its
name with status "scheduled" and return the acknowledgement string. -/
def TaskScheduler.schedule_task (tasks : List (String × Task))
    (task_name : String) (run_time : Nat) (details : List (String × String)) :
    String × List (String × Task) :=
  (scheduledMsg task_name run_time,
   dictSet tasks task_name ⟨run_time, details, "scheduled"⟩)

/-- `TaskScheduler.run_task` (lines 25-34): if the task exists and its
status is "scheduled", mark it "completed" and acknowledge; otherwise
return the combined not-found-or-already-completed string. -/
def TaskScheduler.run_task (tasks : List (String × Task))
    (task_name : String) : String × List (String × Task) :=
  match tasks.lookup task_name with
  | some task =>
      if task.status = "scheduled" then
        (successMsg task_name,
         dictSet tasks task_name { task with status := "completed" })
      else
        (notFoundOrCompletedMsg task_name, tasks)
  | none => (notFoundOrCompletedMsg task_name, tasks)

/-- `TaskScheduler.check_overdue_tasks` (lines 36-46): walk the store in
order; every task in status "scheduled" with run_time strictly below the
current time is appended to the returned list and marked "overdue". -/
def TaskScheduler.check_overdue_tasks (tasks : List (String × Task))
    (current_time : Nat) : List String × List (String × Task) :=
  tasks.foldl
    (fun acc p =>
      if p.2.status = "scheduled" ∧ p.2.run_time < current_time then
        (acc.1 ++ [p.1], acc.2 ++ [(p.1, { p.2 with status := "overdue" })])
      else
        (acc.1, acc.2 ++ [p]))
    ([], [])

/-- `TaskScheduler.cancel_task` (lines 48-55): delete the entry if
present and acknowledge, else report not found. -/
def TaskScheduler.cancel_task (tasks : List (String × Task))
    (task_name : String) : String × List (String × Task) :=
  if (tasks.lookup task_name).isSome then
    (canceledMsg task_name, dictDel tasks task_name)
  else
    (notFoundMsg task_name, tasks)

/-! ### DataStorage (data_storage.py) -/

/-- The methods that class DataStorage (data_storage.py lines 7-91)
actually defines. `store_task_log`, which scheduler.py line 95 invokes,
is not among them, so that invocation raises AttributeError. -/
def DataStorage.methods : List String :=
  ["load_data", "save_data", "add_entry", "get_entry", "delete_entry",
   "list_entries", "backup_data"]

/-! ### Scheduler (scheduler.py) -/

/-- The state owned by one `Scheduler` instance, together with the
observable effect traces described in the module comment. -/
structure SchedState where
  /-- `TaskScheduler.tasks`: the one-shot task store. -/
  tasks : List (String × Task)
  /-- `Scheduler.periodic_tasks`: the periodic task registry. -/
  periodic_tasks : List (String × PeriodicInfo)
  /-- arguments of every `ErrorLogger.log_error(message, exception)` call. -/
  error_log : List (String × Option PyError)
  /-- records handed to `DataStorage.store_task_log`. -/
  task_logs : List TaskLog
  /-- lines printed with `print`. -/
  output : List String
  /-- one entry `(task_name, periodic)` per entry into `Scheduler.execute_task`. -/
  exec_trace : List (String × Bool)
  /-- one entry `(task_name, now)` per invocation of a periodic `task_func`. -/
  fired : List (String × Nat)
deriving DecidableEq, Repr

/-- `Scheduler.schedule_task` (scheduler.py lines 47-49): delegate to the
task scheduler and return its acknowledgement. -/
def Scheduler.schedule_task (s : SchedState) (task_name : String)
    (run_time : Nat) (details : List (String × String)) :
    String × SchedState :=
  let r := TaskScheduler.schedule_task s.tasks task_name run_time details
  (r.1, { s with tasks := r.2 })

/-- `Scheduler.add_periodic_task` (scheduler.py lines 51-65): register or
replace the entry with last_run initialised to the current time. -/
def Scheduler.add_periodic_task (s : SchedState) (task_name : String)
    (interval : Nat) (task_func_raises : Bool)
    (details : List (String × String)) (now : Nat) : SchedState :=
  { s with periodic_tasks :=
      (dictSet s.periodic_tasks task_name
        (⟨interval, now, task_func_raises, details⟩ : PeriodicInfo)) }

/-- `Scheduler.log_task_execution` (scheduler.py lines 88-95): build the
log record and invoke `self.data_storage.store_task_log`. DataStorage
defines no such method, so the attribute access raises AttributeError;
the raise is returned as the second component. -/
def Scheduler.log_task_execution (s : SchedState) (task_name : String)
    (now : Nat) (periodic : Bool) : SchedState × Option PyError :=
  if "store_task_log" ∈ DataStorage.methods then
    ({ s with task_logs := s.task_logs ++ [⟨task_name, now, periodic⟩] }, none)
  else
    (s, some (PyError.attributeError "store_task_log"))

/-- `Scheduler.execute_task` (scheduler.py lines 67-86). The try-body:
for a periodic task, look up its entry (KeyError if absent) and invoke
`task_func`; for a one-shot task, call `TaskScheduler.run_task` and
print the result; then call `log_task_execution`. Any raise from the
body is caught by the except clause, which calls
`ErrorLogger.log_error("Execution Error - ...", e)`. -/
def Scheduler.execute_task (s : SchedState) (task_name : String)
    (periodic : Bool) (now : Nat) : SchedState :=
  let s0 := { s with exec_trace := s.exec_trace ++ [(task_name, periodic)] }
  let r : SchedState × Option PyError :=
    if periodic then
      match s0.periodic_tasks.lookup task_name with
      | none => (s0, some (PyError.keyError task_name))
      | some info =>
          let s1 := { s0 with fired := s0.fired ++ [(task_name, now)] }
          if info.task_func_raises then
            (s1, some (PyError.actionError task_name))
          else
            Scheduler.log_task_execution s1 task_name now periodic
    else
      let pr := TaskScheduler.run_task s0.tasks task_name
      let s1 := { s0 with tasks := pr.2, output := s0.output ++ [pr.1] }
      Scheduler.log_task_execution s1 task_name now periodic
  match r.2 with
  | some e =>
      { r.1 with error_log :=
          (r.1.error_log ++ [(execErrorCtx task_name, some e)]) }
  | none => r.1

/-- The loop over overdue one-shot tasks, scheduler.py lines 31-33. -/
def Scheduler.oneShotPass (s : SchedState) (names : List String)
    (now : Nat) : SchedState :=
  names.foldl (fun st name => Scheduler.execute_task st name false now) s

/-- One iteration of the periodic loop, scheduler.py lines 36-41: if the
observed time has reached last_run + interval, execute the task and then
assign last_run := now. (In every state the loop reaches, the key `p.1`
is present in the registry, so the dict assignment replaces in place.) -/
def Scheduler.periodicStep (now : Nat) (st : SchedState)
    (p : String × PeriodicInfo) : SchedState :=
  if p.2.last_run + p.2.interval ≤ now then
    let st1 := Scheduler.execute_task st p.1 true now
    { st1 with periodic_tasks :=
        (dictSet st1.periodic_tasks p.1 { p.2 with last_run := now }) }
  else st

/-- The loop over the periodic registry, scheduler.py lines 36-41. The
iteration runs over the snapshot `l` of the registry taken at loop
entry; only last_run fields of already-visited entries change during
the loop. -/
def Scheduler.periodicPass (s : SchedState)
    (l : List (String × PeriodicInfo)) (now : Nat) : SchedState :=
  l.foldl (Scheduler.periodicStep now) s

/-- One tick of `Scheduler._run_scheduler` (scheduler.py lines 28-43):
check and execute overdue one-shot tasks, then fire due periodic tasks.
`now` is the value `datetime.now()` observed during this tick. -/
def Scheduler.tick (s : SchedState) (now : Nat) : SchedState :=
  let co := TaskScheduler.check_overdue_tasks s.tasks now
  let s1 := { s with tasks := co.2 }
  let s2 := Scheduler.oneShotPass s1 co.1 now
  Scheduler.periodicPass s2 s2.periodic_tasks now

/-- A run of the scheduler loop: one tick per element of `times`, the
successive `datetime.now()` observations. -/
def Scheduler.runTicks (s : SchedState) (times : List Nat) : SchedState :=
  times.foldl Scheduler.tick s

/-- `Scheduler.cancel_task` (scheduler.py lines 116-122): remove from the
periodic registry if present there (printing the periodic
acknowledgement), otherwise delegate to `TaskScheduler.cancel_task` and
print its result string. -/
def Scheduler.cancel_task (s : SchedState) (task_name : String) :
    SchedState :=
  if (s.periodic_tasks.lookup task_name).isSome then
    { s with periodic_tasks := dictDel s.periodic_tasks task_name,
             output := s.output ++ [periodicCanceledMsg task_name] }
  else
    let r := TaskScheduler.cancel_task s.tasks task_name
    { s with tasks := r.2, output := s.output ++ [r.1] }

/-! ### Derived notions used in the statements -/

/-- The predicate of task_scheduler.py line 43: a one-shot entry reported
(and marked) overdue at the given time. -/
def dueOneShot (now : Nat) (p : String × Task) : Bool :=
  decide (p.2.status = "scheduled" ∧ p.2.run_time < now)

/-- The per-entry effect of `check_overdue_tasks`: mark a due entry
"overdue", leave any other entry unchanged. -/
def markOverdue (now : Nat) (p : String × Task) : String × Task :=
  if p.2.status = "scheduled" ∧ p.2.run_time < now then
    (p.1, { p.2 with status := "overdue" })
  else p

/-- The names reported by `check_overdue_tasks` during a tick at `now`. -/
def overdueNames (s : SchedState) (now : Nat) : List String :=
  (TaskScheduler.check_overdue_tasks s.tasks now).1

/-- The periodic entries whose firing condition holds at `now`
(scheduler.py line 39). -/
def duePeriodic (s : SchedState) (now : Nat) :
    List (String × PeriodicInfo) :=
  s.periodic_tasks.filter (fun q => decide (q.2.last_run + q.2.interval ≤ now))

/-- The invocation times of the periodic task named `p` recorded in a
fired-trace. -/
def firesOf (l : List (String × Nat)) (p : String) : List Nat :=
  (l.filter (fun e => decide (e.1 = p))).map Prod.snd

/-- The empty scheduler state: fresh TaskScheduler and Scheduler
instances, no effects recorded yet. -/
def initState : SchedState :=
  ⟨[], [], [], [], [], [], []⟩

/-!
## Association list lemmas (the Python dict operations)
-/

theorem lk_cons_self {α : Type} (a : String) (b : α) (t : List (String × α)) :
    ((a, b) :: t).lookup a = some b := by
  simp [List.lookup_cons]

theorem lk_cons_ne {α : Type} {k a : String} (b : α) (t : List (String × α))
    (h : k ≠ a) : ((a, b) :: t).lookup k = t.lookup k := by
  simp [List.lookup_cons, beq_eq_false_iff_ne.mpr h]

theorem mem_keys_iff_isSome {α : Type} (l : List (String × α)) (k : String) :
    k ∈ l.map Prod.fst ↔ (l.lookup k).isSome := by
  induction l with
  | nil => simp
  | cons p t ih =>
      obtain ⟨a, b⟩ := p
      by_cases h : k = a
      · subst h; simp [lk_cons_self]
      · simp [lk_cons_ne b t h, ih, h]

theorem lookup_map_keyfix {α β : Type} (f : String × α → String × β)
    (hf : ∀ p, (f p).1 = p.1) (l : List (String × α)) (k : String) :
    (l.map f).lookup k = (l.lookup k).map (fun v => (f (k, v)).2) := by
  induction l with
  | nil => simp
  | cons p t ih =>
      obtain ⟨a, b⟩ := p
      by_cases h : k = a
      · subst h
        have h2 : f (k, b) = (k, (f (k, b)).2) := Prod.ext (hf (k, b)) rfl
        simp only [List.map_cons, lk_cons_self]
        rw [h2, lk_cons_self]
        simp
      · have h2 : f (a, b) = (a, (f (a, b)).2) := Prod.ext (hf (a, b)) rfl
        simp only [List.map_cons]
        rw [h2, lk_cons_ne _ _ h, lk_cons_ne _ _ h, ih]

theorem lookup_append_of_none {α : Type} {l1 : List (String × α)}
    (l2 : List (String × α)) {k : String} (h : l1.lookup k = none) :
    (l1 ++ l2).lookup k = l2.lookup k := by
  induction l1 with
  | nil => simp
  | cons p t ih =>
      obtain ⟨a, b⟩ := p
      by_cases hk : k = a
      · subst hk; rw [lk_cons_self] at h; cases h
      · rw [lk_cons_ne b t hk] at h
        rw [List.cons_append, lk_cons_ne _ _ hk]
        exact ih h

theorem lookup_append_of_some {α : Type} {l1 : List (String × α)}
    (l2 : List (String × α)) {k : String} {v : α} (h : l1.lookup k = some v) :
    (l1 ++ l2).lookup k = some v := by
  induction l1 with
  | nil => simp at h
  | cons p t ih =>
      obtain ⟨a, b⟩ := p
      by_cases hk : k = a
      · subst hk
        rw [lk_cons_self] at h
        rw [List.cons_append, lk_cons_self]
        exact h
      · rw [lk_cons_ne b t hk] at h
        rw [List.cons_append, lk_cons_ne _ _ hk]
        exact ih h

theorem keyfix_replace {α : Type} (k : String) (v : α) :
    ∀ p : String × α, ((if p.1 = k then (k, v) else p) : String × α).1 = p.1 := by
  intro p
  by_cases hp : p.1 = k
  · rw [if_pos hp, hp]
  · rw [if_neg hp]

theorem lookup_dictSet_self {α : Type} (l : List (String × α)) (k : String)
    (v : α) : (dictSet l k v).lookup k = some v := by
  unfold dictSet
  split
  case isTrue h =>
    rw [lookup_map_keyfix _ (keyfix_replace k v) l k]
    obtain ⟨w, hw⟩ := Option.isSome_iff_exists.mp h
    rw [hw]
    simp
  case isFalse h =>
    have hnone : l.lookup k = none := by
      cases hl : l.lookup k with
      | none => rfl
      | some w => exact absurd (by simp [hl]) h
    rw [lookup_append_of_none _ hnone, lk_cons_self]

theorem lookup_dictSet_ne {α : Type} (l : List (String × α)) {k k' : String}
    (v : α) (h : k' ≠ k) : (dictSet l k v).lookup k' = l.lookup k' := by
  unfold dictSet
  split
  · rw [lookup_map_keyfix _ (keyfix_replace k v) l k']
    cases hl : l.lookup k' with
    | none => simp
    | some w => simp [if_neg h]
  · cases hl : l.lookup k' with
    | none =>
        rw [lookup_append_of_none _ hl, lk_cons_ne _ _ h]
        simp [List.lookup]
    | some w => exact lookup_append_of_some _ hl

theorem keys_dictSet_of_mem {α : Type} (l : List (String × α)) (k : String)
    (v : α) (h : k ∈ l.map Prod.fst) :
    (dictSet l k v).map Prod.fst = l.map Prod.fst := by
  unfold dictSet
  rw [if_pos ((mem_keys_iff_isSome l k).mp h), List.map_map]
  exact List.map_congr_left (fun p _ => keyfix_replace k v p)

theorem nodup_lookup_of_mem {α : Type} {l : List (String × α)} {k : String}
    {v : α} (hN : (l.map Prod.fst).Nodup) (h : (k, v) ∈ l) :
    l.lookup k = some v := by
  induction l with
  | nil => simp at h
  | cons p t ih =>
      obtain ⟨a, b⟩ := p
      simp only [List.map_cons, List.nodup_cons] at hN
      rcases List.mem_cons.mp h with h1 | h1
      · cases h1
        exact lk_cons_self k v t
      · have hne : k ≠ a := by
          rintro rfl
          exact hN.1 (List.mem_map.mpr ⟨(k, v), h1, rfl⟩)
        rw [lk_cons_ne _ _ hne]
        exact ih hN.2 h1

theorem nodup_decomp {α : Type} {l : List (String × α)} {k : String} {v : α}
    (hN : (l.map Prod.fst).Nodup) (h : l.lookup k = some v) :
    ∃ l1 l2, l = l1 ++ (k, v) :: l2 ∧ k ∉ l1.map Prod.fst ∧
      k ∉ l2.map Prod.fst := by
  induction l with
  | nil => simp [List.lookup] at h
  | cons p t ih =>
      obtain ⟨a, b⟩ := p
      simp only [List.map_cons, List.nodup_cons] at hN
      by_cases hk : k = a
      · subst hk
        rw [lk_cons_self] at h
        cases h
        exact ⟨[], t, rfl, by simp, hN.1⟩
      · rw [lk_cons_ne _ _ hk] at h
        obtain ⟨l1, l2, he, h1, h2⟩ := ih hN.2 h
        refine ⟨(a, b) :: l1, l2, by rw [he]; rfl, ?_, h2⟩
        simp only [List.map_cons, List.mem_cons]
        push_neg
        exact ⟨hk, h1⟩

theorem lookup_dictDel_self {α : Type} (l : List (String × α)) (k : String) :
    (dictDel l k).lookup k = none := by
  unfold dictDel
  induction l with
  | nil => simp
  | cons p t ih =>
      obtain ⟨a, b⟩ := p
      by_cases hp : a = k
      · rw [List.filter_cons_of_neg (by simp [hp])]
        exact ih
      · rw [List.filter_cons_of_pos (by simp [hp])]
        rw [lk_cons_ne _ _ (fun he => hp he.symm)]
        exact ih

/-!
## Chain and getLastD lemmas (for the periodic spacing argument)
-/

theorem getLastD_append_eq (l1 l2 : List Nat) (d : Nat) :
    (l1 ++ l2).getLastD d = l2.getLastD (l1.getLastD d) := by
  induction l1 generalizing d with
  | nil => rfl
  | cons a t ih =>
      rw [List.cons_append, List.getLastD_cons, List.getLastD_cons, ih]

theorem chain_getLastD_append {R : Nat → Nat → Prop} {d : Nat}
    {l1 l2 : List Nat} (h1 : List.Chain R d l1)
    (h2 : List.Chain R (l1.getLastD d) l2) : List.Chain R d (l1 ++ l2) := by
  induction l1 generalizing d with
  | nil => exact h2
  | cons a t ih =>
      rw [List.chain_cons] at h1
      rw [List.cons_append, List.chain_cons]
      rw [List.getLastD_cons] at h2
      exact ⟨h1.1, ih h1.2 h2⟩

theorem le_getLastD_of_chain {i d : Nat} {l : List Nat}
    (h : List.Chain (fun a b => a + i ≤ b) d l) : d ≤ l.getLastD d := by
  induction l generalizing d with
  | nil => simp
  | cons a t ih =>
      rw [List.chain_cons] at h
      rw [List.getLastD_cons]
      exact le_trans (le_trans (Nat.le_add_right d i) h.1) (ih h.2)

/-!
## Behaviour of Scheduler.execute_task, branch by branch
-/

theorem log_task_execution_eq (s : SchedState) (n : String) (now : Nat)
    (b : Bool) :
    Scheduler.log_task_execution s n now b =
      (s, some (PyError.attributeError "store_task_log")) := rfl

/-- One-shot branch: run_task is applied to the store, its result string
is printed, and the AttributeError from log_task_execution is caught and
logged. -/
theorem execute_task_oneshot (s : SchedState) (n : String) (now : Nat) :
    Scheduler.execute_task s n false now =
      { s with tasks := (TaskScheduler.run_task s.tasks n).2,
               output := s.output ++ [(TaskScheduler.run_task s.tasks n).1],
               exec_trace := s.exec_trace ++ [(n, false)],
               error_log := (s.error_log ++
                 [(execErrorCtx n,
                   some (PyError.attributeError "store_task_log"))]) } := rfl

/-- Periodic branch, entry missing from the registry: the KeyError from
the dict indexing is caught and logged. -/
theorem execute_task_periodic_missing (s : SchedState) (n : String)
    (now : Nat) (h : s.periodic_tasks.lookup n = none) :
    Scheduler.execute_task s n true now =
      { s with exec_trace := s.exec_trace ++ [(n, true)],
               error_log := (s.error_log ++
                 [(execErrorCtx n, some (PyError.keyError n))]) } := by
  unfold Scheduler.execute_task
  simp only []
  rw [show ({ s with exec_trace := s.exec_trace ++ [(n, true)] } :
      SchedState).periodic_tasks = s.periodic_tasks from rfl, h]
  rfl

/-- Periodic branch, the action raises: the fault is caught and logged
with the task identity; the registries and the one-shot statuses are
untouched. -/
theorem execute_task_periodic_raises (s : SchedState) (n : String)
    (now : Nat) (info : PeriodicInfo)
    (h : s.periodic_tasks.lookup n = some info)
    (hr : info.task_func_raises = true) :
    Scheduler.execute_task s n true now =
      { s with exec_trace := s.exec_trace ++ [(n, true)],
               fired := s.fired ++ [(n, now)],
               error_log := (s.error_log ++
                 [(execErrorCtx n, some (PyError.actionError n))]) } := by
  unfold Scheduler.execute_task
  simp only []
  rw [show ({ s with exec_trace := s.exec_trace ++ [(n, true)] } :
      SchedState).periodic_tasks = s.periodic_tasks from rfl, h]
  simp only [hr, if_pos rfl]
  rfl

/-- Periodic branch, the action returns: the subsequent
log_task_execution raises AttributeError, which is caught and logged. -/
theorem execute_task_periodic_ok (s : SchedState) (n : String)
    (now : Nat) (info : PeriodicInfo)
    (h : s.periodic_tasks.lookup n = some info)
    (hr : info.task_func_raises = false) :
    Scheduler.execute_task s n true now =
      { s with exec_trace := s.exec_trace ++ [(n, true)],
               fired := s.fired ++ [(n, now)],
               error_log := (s.error_log ++
                 [(execErrorCtx n,
                   some (PyError.attributeError "store_task_log"))]) } := by
  unfold Scheduler.execute_task
  simp only []
  rw [show ({ s with exec_trace := s.exec_trace ++ [(n, true)] } :
      SchedState).periodic_tasks = s.periodic_tasks from rfl, h]
  simp only [hr]
  rfl

theorem execute_task_periodic_tasks_eq (s : SchedState) (n : String)
    (b : Bool) (now : Nat) :
    (Scheduler.execute_task s n b now).periodic_tasks = s.periodic_tasks := by
  cases b
  · rw [execute_task_oneshot]
  · cases h : s.periodic_tasks.lookup n with
    | none => rw [execute_task_periodic_missing _ _ _ h]
    | some info =>
        cases hr : info.task_func_raises
        · rw [execute_task_periodic_ok _ _ _ _ h hr]
        · rw [execute_task_periodic_raises _ _ _ _ h hr]

theorem execute_task_task_logs_eq (s : SchedState) (n : String)
    (b : Bool) (now : Nat) :
    (Scheduler.execute_task s n b now).task_logs = s.task_logs := by
  cases b
  · rw [execute_task_oneshot]
  · cases h : s.periodic_tasks.lookup n with
    | none => rw [execute_task_periodic_missing _ _ _ h]
    | some info =>
        cases hr : info.task_func_raises
        · rw [execute_task_periodic_ok _ _ _ _ h hr]
        · rw [execute_task_periodic_raises _ _ _ _ h hr]

theorem execute_task_exec_trace_eq (s : SchedState) (n : String)
    (b : Bool) (now : Nat) :
    (Scheduler.execute_task s n b now).exec_trace =
      s.exec_trace ++ [(n, b)] := by
  cases b
  · rw [execute_task_oneshot]
  · cases h : s.periodic_tasks.lookup n with
    | none => rw [execute_task_periodic_missing _ _ _ h]
    | some info =>
        cases hr : info.task_func_raises
        · rw [execute_task_periodic_ok _ _ _ _ h hr]
        · rw [execute_task_periodic_raises _ _ _ _ h hr]

theorem execute_task_tasks_eq_of_periodic (s : SchedState) (n : String)
    (now : Nat) :
    (Scheduler.execute_task s n true now).tasks = s.tasks := by
  cases h : s.periodic_tasks.lookup n with
  | none => rw [execute_task_periodic_missing _ _ _ h]
  | some info =>
      cases hr : info.task_func_raises
      · rw [execute_task_periodic_ok _ _ _ _ h hr]
      · rw [execute_task_periodic_raises _ _ _ _ h hr]

theorem execute_task_fired_eq_of_oneshot (s : SchedState) (n : String)
    (now : Nat) :
    (Scheduler.execute_task s n false now).fired = s.fired := by
  rw [execute_task_oneshot]

/-- Every invocation of the executor reports exactly one entry to the
error sink, and its context string carries the task identity. -/
theorem execute_task_error_log_shape (s : SchedState) (n : String)
    (b : Bool) (now : Nat) :
    ∃ e, (Scheduler.execute_task s n b now).error_log =
      s.error_log ++ [(execErrorCtx n, some e)] := by
  cases b
  · exact ⟨_, by rw [execute_task_oneshot]⟩
  · cases h : s.periodic_tasks.lookup n with
    | none => exact ⟨_, by rw [execute_task_periodic_missing _ _ _ h]⟩
    | some info =>
        cases hr : info.task_func_raises
        · exact ⟨_, by rw [execute_task_periodic_ok _ _ _ _ h hr]⟩
        · exact ⟨_, by rw [execute_task_periodic_raises _ _ _ _ h hr]⟩

/-- A periodic invocation of the executor appends at most the entry
`(n, now)` to the fired trace, and at least nothing. -/
theorem execute_task_fired_shape (s : SchedState) (n : String) (now : Nat) :
    ∃ d, (Scheduler.execute_task s n true now).fired = s.fired ++ d ∧
      ∀ e ∈ d, e = (n, now) := by
  cases h : s.periodic_tasks.lookup n with
  | none =>
      exact ⟨[], by rw [execute_task_periodic_missing _ _ _ h]; simp, by simp⟩
  | some info =>
      cases hr : info.task_func_raises
      · exact ⟨[(n, now)],
          by rw [execute_task_periodic_ok _ _ _ _ h hr], by simp⟩
      · exact ⟨[(n, now)],
          by rw [execute_task_periodic_raises _ _ _ _ h hr], by simp⟩

/-!
## The overdue scan: characterization of check_overdue_tasks
-/

theorem check_overdue_fold (now : Nat) (tasks : List (String × Task))
    (acc : List String × List (String × Task)) :
    tasks.foldl
      (fun acc p =>
        if p.2.status = "scheduled" ∧ p.2.run_time < now then
          (acc.1 ++ [p.1], acc.2 ++ [(p.1, { p.2 with status := "overdue" })])
        else
          (acc.1, acc.2 ++ [p]))
      acc =
      (acc.1 ++ (tasks.filter (dueOneShot now)).map Prod.fst,
       acc.2 ++ tasks.map (markOverdue now)) := by
  induction tasks generalizing acc with
  | nil => simp
  | cons p t ih =>
      by_cases h : p.2.status = "scheduled" ∧ p.2.run_time < now
      · rw [List.foldl_cons, if_pos h, ih]
        rw [List.filter_cons_of_pos (by simpa [dueOneShot] using h)]
        simp [markOverdue, if_pos h]
      · rw [List.foldl_cons, if_neg h, ih]
        rw [List.filter_cons_of_neg (by simpa [dueOneShot] using h)]
        simp [markOverdue, if_neg h]

/-- `check_overdue_tasks` returns exactly the names of the stored
entries that are in status "scheduled" with run_time strictly before the
current time, in store order, and the store with exactly those entries
re-marked "overdue". -/
theorem check_overdue_spec (tasks : List (String × Task)) (now : Nat) :
    TaskScheduler.check_overdue_tasks tasks now =
      ((tasks.filter (dueOneShot now)).map Prod.fst,
       tasks.map (markOverdue now)) := by
  unfold TaskScheduler.check_overdue_tasks
  simpa using check_overdue_fold now tasks ([], [])

/-!
## The one-shot execution loop
-/

theorem oneShotPass_periodic_eq (s : SchedState) (names : List String)
    (now : Nat) :
    (Scheduler.oneShotPass s names now).periodic_tasks =
      s.periodic_tasks := by
  induction names generalizing s with
  | nil => rfl
  | cons n t ih =>
      show (Scheduler.oneShotPass
        (Scheduler.execute_task s n false now) t now).periodic_tasks = _
      rw [ih, execute_task_periodic_tasks_eq]

theorem oneShotPass_fired_eq (s : SchedState) (names : List String)
    (now : Nat) :
    (Scheduler.oneShotPass s names now).fired = s.fired := by
  induction names generalizing s with
  | nil => rfl
  | cons n t ih =>
      show (Scheduler.oneShotPass
        (Scheduler.execute_task s n false now) t now).fired = _
      rw [ih, execute_task_fired_eq_of_oneshot]

theorem oneShotPass_task_logs_eq (s : SchedState) (names : List String)
    (now : Nat) :
    (Scheduler.oneShotPass s names now).task_logs = s.task_logs := by
  induction names generalizing s with
  | nil => rfl
  | cons n t ih =>
      show (Scheduler.oneShotPass
        (Scheduler.execute_task s n false now) t now).task_logs = _
      rw [ih, execute_task_task_logs_eq]

theorem oneShotPass_exec_trace (s : SchedState) (names : List String)
    (now : Nat) :
    (Scheduler.oneShotPass s names now).exec_trace =
      s.exec_trace ++ names.map (fun n => (n, false)) := by
  induction names generalizing s with
  | nil => simp [Scheduler.oneShotPass]
  | cons n t ih =>
      show (Scheduler.oneShotPass
        (Scheduler.execute_task s n false now) t now).exec_trace = _
      rw [ih, execute_task_exec_trace_eq]
      simp

/-- Each task handed to the one-shot loop contributes exactly one
error-sink entry, always the caught AttributeError from the missing
store_task_log method. -/
theorem oneShotPass_error_log (s : SchedState) (names : List String)
    (now : Nat) :
    (Scheduler.oneShotPass s names now).error_log =
      s.error_log ++ names.map (fun n =>
        (execErrorCtx n, some (PyError.attributeError "store_task_log"))) := by
  induction names generalizing s with
  | nil => simp [Scheduler.oneShotPass]
  | cons n t ih =>
      show (Scheduler.oneShotPass
        (Scheduler.execute_task s n false now) t now).error_log = _
      rw [ih, show (Scheduler.execute_task s n false now).error_log =
        s.error_log ++ [(execErrorCtx n,
          some (PyError.attributeError "store_task_log"))] from
        by rw [execute_task_oneshot]]
      simp

/-- If none of the named tasks is in status "scheduled", the one-shot
loop leaves the task store untouched (run_task refuses each of them). -/
theorem oneShotPass_tasks_eq (s : SchedState) (names : List String)
    (now : Nat)
    (h : ∀ n ∈ names, ∀ u, s.tasks.lookup n = some u →
      u.status ≠ "scheduled") :
    (Scheduler.oneShotPass s names now).tasks = s.tasks := by
  induction names generalizing s with
  | nil => rfl
  | cons n t ih =>
      have htasks : (Scheduler.execute_task s n false now).tasks = s.tasks := by
        rw [execute_task_oneshot]
        show (TaskScheduler.run_task s.tasks n).2 = s.tasks
        unfold TaskScheduler.run_task
        cases hl : s.tasks.lookup n with
        | none => rfl
        | some u =>
            show (if u.status = "scheduled" then
                (successMsg n,
                 dictSet s.tasks n { u with status := "completed" })
              else (notFoundOrCompletedMsg n, s.tasks)).2 = s.tasks
            rw [if_neg (h n (by simp) u hl)]
      show (Scheduler.oneShotPass
        (Scheduler.execute_task s n false now) t now).tasks = _
      rw [ih _ ?_, htasks]
      intro m hm u hu
      rw [htasks] at hu
      exact h m (List.mem_cons_of_mem _ hm) u hu

/-!
## The periodic execution loop
-/

theorem periodicPass_cons (s : SchedState) (q : String × PeriodicInfo)
    (t : List (String × PeriodicInfo)) (now : Nat) :
    Scheduler.periodicPass s (q :: t) now =
      Scheduler.periodicPass (Scheduler.periodicStep now s q) t now := rfl

theorem periodicStep_due (now : Nat) (st : SchedState)
    (p : String × PeriodicInfo) (h : p.2.last_run + p.2.interval ≤ now) :
    Scheduler.periodicStep now st p =
      { (Scheduler.execute_task st p.1 true now) with periodic_tasks :=
          (dictSet st.periodic_tasks p.1 { p.2 with last_run := now }) } := by
  unfold Scheduler.periodicStep
  rw [if_pos h]
  dsimp only
  rw [execute_task_periodic_tasks_eq]

theorem periodicStep_not_due (now : Nat) (st : SchedState)
    (p : String × PeriodicInfo) (h : ¬ p.2.last_run + p.2.interval ≤ now) :
    Scheduler.periodicStep now st p = st := by
  unfold Scheduler.periodicStep
  rw [if_neg h]

theorem periodicStep_tasks_eq (now : Nat) (st : SchedState)
    (p : String × PeriodicInfo) :
    (Scheduler.periodicStep now st p).tasks = st.tasks := by
  by_cases h : p.2.last_run + p.2.interval ≤ now
  · rw [periodicStep_due now st p h]
    exact execute_task_tasks_eq_of_periodic st p.1 now
  · rw [periodicStep_not_due now st p h]

theorem periodicStep_task_logs_eq (now : Nat) (st : SchedState)
    (p : String × PeriodicInfo) :
    (Scheduler.periodicStep now st p).task_logs = st.task_logs := by
  by_cases h : p.2.last_run + p.2.interval ≤ now
  · rw [periodicStep_due now st p h]
    exact execute_task_task_logs_eq st p.1 true now
  · rw [periodicStep_not_due now st p h]

theorem periodicStep_exec_trace (now : Nat) (st : SchedState)
    (p : String × PeriodicInfo) :
    (Scheduler.periodicStep now st p).exec_trace = st.exec_trace ++
      (if p.2.last_run + p.2.interval ≤ now then [(p.1, true)] else []) := by
  by_cases h : p.2.last_run + p.2.interval ≤ now
  · rw [periodicStep_due now st p h, if_pos h]
    exact execute_task_exec_trace_eq st p.1 true now
  · rw [periodicStep_not_due now st p h, if_neg h]
    simp

theorem periodicPass_tasks_eq (s : SchedState)
    (l : List (String × PeriodicInfo)) (now : Nat) :
    (Scheduler.periodicPass s l now).tasks = s.tasks := by
  induction l generalizing s with
  | nil => rfl
  | cons q t ih => rw [periodicPass_cons, ih, periodicStep_tasks_eq]

theorem periodicPass_task_logs_eq (s : SchedState)
    (l : List (String × PeriodicInfo)) (now : Nat) :
    (Scheduler.periodicPass s l now).task_logs = s.task_logs := by
  induction l generalizing s with
  | nil => rfl
  | cons q t ih => rw [periodicPass_cons, ih, periodicStep_task_logs_eq]

theorem periodicPass_exec_trace (s : SchedState)
    (l : List (String × PeriodicInfo)) (now : Nat) :
    (Scheduler.periodicPass s l now).exec_trace = s.exec_trace ++
      (l.filter (fun q => decide (q.2.last_run + q.2.interval ≤ now))).map
        (fun q => (q.1, true)) := by
  induction l generalizing s with
  | nil => simp [Scheduler.periodicPass]
  | cons q t ih =>
      rw [periodicPass_cons, ih, periodicStep_exec_trace]
      by_cases h : q.2.last_run + q.2.interval ≤ now
      · rw [if_pos h, List.filter_cons_of_pos (by simpa using h)]
        simp
      · rw [if_neg h, List.filter_cons_of_neg (by simpa using h)]
        simp

theorem periodicPass_keys (s : SchedState)
    (l : List (String × PeriodicInfo)) (now : Nat)
    (hq : ∀ x ∈ l, x.1 ∈ s.periodic_tasks.map Prod.fst) :
    (Scheduler.periodicPass s l now).periodic_tasks.map Prod.fst =
      s.periodic_tasks.map Prod.fst := by
  induction l generalizing s with
  | nil => rfl
  | cons q t ih =>
      have hstep : (Scheduler.periodicStep now s q).periodic_tasks.map
          Prod.fst = s.periodic_tasks.map Prod.fst := by
        by_cases h : q.2.last_run + q.2.interval ≤ now
        · rw [periodicStep_due now s q h]
          exact keys_dictSet_of_mem _ _ _ (hq q (by simp))
        · rw [periodicStep_not_due now s q h]
      rw [periodicPass_cons,
        ih (Scheduler.periodicStep now s q)
          (fun x hx => by rw [hstep]; exact hq x (List.mem_cons_of_mem _ hx)),
        hstep]

/-- Processing periodic entries whose names all differ from `p` leaves
the registry entry of `p` untouched, adds no fire of `p`, and adds only
error-sink entries whose context names one of those other tasks. -/
theorem periodicPass_notin (s : SchedState)
    (l : List (String × PeriodicInfo)) (now : Nat) (p : String)
    (hp : p ∉ l.map Prod.fst) :
    (Scheduler.periodicPass s l now).periodic_tasks.lookup p =
      s.periodic_tasks.lookup p ∧
    (∃ d, (Scheduler.periodicPass s l now).fired = s.fired ++ d ∧
      d.filter (fun e => decide (e.1 = p)) = []) ∧
    (∃ d, (Scheduler.periodicPass s l now).error_log = s.error_log ++ d ∧
      ∀ e ∈ d, ∃ q ∈ l.map Prod.fst, e.1 = execErrorCtx q) := by
  induction l generalizing s with
  | nil =>
      exact ⟨rfl, ⟨[], by simp [Scheduler.periodicPass], by simp⟩,
        ⟨[], by simp [Scheduler.periodicPass], by simp⟩⟩
  | cons q t ih =>
      have hq1 : q.1 ≠ p := fun he => hp (by simp [he])
      have hpt : p ∉ t.map Prod.fst := fun hm => hp (List.mem_cons_of_mem _ hm)
      have hlook : (Scheduler.periodicStep now s q).periodic_tasks.lookup p =
          s.periodic_tasks.lookup p := by
        by_cases h : q.2.last_run + q.2.interval ≤ now
        · rw [periodicStep_due now s q h]
          exact lookup_dictSet_ne _ _ (fun he => hq1 he.symm)
        · rw [periodicStep_not_due now s q h]
      have hfired : ∃ d, (Scheduler.periodicStep now s q).fired =
          s.fired ++ d ∧ ∀ e ∈ d, e.1 = q.1 := by
        by_cases h : q.2.last_run + q.2.interval ≤ now
        · rw [periodicStep_due now s q h]
          obtain ⟨d, hd, hall⟩ := execute_task_fired_shape s q.1 now
          exact ⟨d, hd, fun e he => by rw [hall e he]⟩
        · exact ⟨[], by rw [periodicStep_not_due now s q h]; simp, by simp⟩
      have herr : ∃ d, (Scheduler.periodicStep now s q).error_log =
          s.error_log ++ d ∧ ∀ e ∈ d, e.1 = execErrorCtx q.1 := by
        by_cases h : q.2.last_run + q.2.interval ≤ now
        · rw [periodicStep_due now s q h]
          obtain ⟨e, he⟩ := execute_task_error_log_shape s q.1 true now
          exact ⟨[(execErrorCtx q.1, some e)], he, by simp⟩
        · exact ⟨[], by rw [periodicStep_not_due now s q h]; simp, by simp⟩
      obtain ⟨hl2, ⟨df, hdf, hdf2⟩, ⟨de, hde, hde2⟩⟩ :=
        ih (Scheduler.periodicStep now s q) hpt
      obtain ⟨d1, hd1, hall1⟩ := hfired
      obtain ⟨d2, hd2, hall2⟩ := herr
      refine ⟨?_, ⟨d1 ++ df, ?_, ?_⟩, ⟨d2 ++ de, ?_, ?_⟩⟩
      · rw [periodicPass_cons, hl2, hlook]
      · rw [periodicPass_cons, hdf, hd1, List.append_assoc]
      · rw [List.filter_append, hdf2, List.append_nil]
        exact List.filter_eq_nil_iff.mpr
          (fun e he => by simp [hall1 e he, hq1])
      · rw [periodicPass_cons, hde, hd2, List.append_assoc]
      · intro e he
        rcases List.mem_append.mp he with h1 | h1
        · exact ⟨q.1, by simp, hall2 e h1⟩
        · obtain ⟨q', hq', he'⟩ := hde2 e h1
          exact ⟨q', List.mem_cons_of_mem _ hq', he'⟩

theorem periodicPass_append (s : SchedState)
    (l1 l2 : List (String × PeriodicInfo)) (now : Nat) :
    Scheduler.periodicPass s (l1 ++ l2) now =
      Scheduler.periodicPass (Scheduler.periodicPass s l1 now) l2 now := by
  unfold Scheduler.periodicPass
  rw [List.foldl_append]

theorem execute_task_fired_of_found (s : SchedState) (n : String)
    (now : Nat) (info : PeriodicInfo)
    (h : s.periodic_tasks.lookup n = some info) :
    (Scheduler.execute_task s n true now).fired = s.fired ++ [(n, now)] := by
  cases hr : info.task_func_raises
  · rw [execute_task_periodic_ok _ _ _ _ h hr]
  · rw [execute_task_periodic_raises _ _ _ _ h hr]

theorem firesOf_append (a b : List (String × Nat)) (p : String) :
    firesOf (a ++ b) p = firesOf a p ++ firesOf b p := by
  unfold firesOf
  rw [List.filter_append, List.map_append]

theorem markOverdue_fst (now : Nat) (p : String × Task) :
    (markOverdue now p).1 = p.1 := by
  unfold markOverdue
  split <;> rfl

theorem execErrorCtx_inj {a b : String}
    (h : execErrorCtx a = execErrorCtx b) : a = b := by
  unfold execErrorCtx at h
  have hd := congrArg String.data h
  rw [String.data_append, String.data_append] at hd
  have h2 := List.append_cancel_left hd
  cases a; cases b
  exact congrArg String.mk (by simpa using h2)

/-!
## The tick: assembled behaviour of one loop iteration
-/

theorem tick_as_pass (s : SchedState) (now : Nat) :
    Scheduler.tick s now =
      Scheduler.periodicPass
        (Scheduler.oneShotPass
          { s with tasks := (TaskScheduler.check_overdue_tasks s.tasks now).2 }
          (TaskScheduler.check_overdue_tasks s.tasks now).1 now)
        s.periodic_tasks now := by
  show Scheduler.periodicPass
      (Scheduler.oneShotPass
        { s with tasks := (TaskScheduler.check_overdue_tasks s.tasks now).2 }
        (TaskScheduler.check_overdue_tasks s.tasks now).1 now)
      (Scheduler.oneShotPass
        { s with tasks := (TaskScheduler.check_overdue_tasks s.tasks now).2 }
        (TaskScheduler.check_overdue_tasks s.tasks now).1 now).periodic_tasks
      now = _
  rw [oneShotPass_periodic_eq]

theorem tick_oneShot_state_periodic (s : SchedState) (now : Nat) :
    (Scheduler.oneShotPass
      { s with tasks := (TaskScheduler.check_overdue_tasks s.tasks now).2 }
      (TaskScheduler.check_overdue_tasks s.tasks now).1 now).periodic_tasks =
      s.periodic_tasks := by
  rw [oneShotPass_periodic_eq]

theorem tick_oneShot_state_fired (s : SchedState) (now : Nat) :
    (Scheduler.oneShotPass
      { s with tasks := (TaskScheduler.check_overdue_tasks s.tasks now).2 }
      (TaskScheduler.check_overdue_tasks s.tasks now).1 now).fired =
      s.fired := by
  rw [oneShotPass_fired_eq]

theorem tick_oneShot_state_error (s : SchedState) (now : Nat) :
    (Scheduler.oneShotPass
      { s with tasks := (TaskScheduler.check_overdue_tasks s.tasks now).2 }
      (TaskScheduler.check_overdue_tasks s.tasks now).1 now).error_log =
      s.error_log ++ (overdueNames s now).map (fun n =>
        (execErrorCtx n, some (PyError.attributeError "store_task_log"))) := by
  rw [oneShotPass_error_log]
  rfl

/-- During one tick, exactly the overdue one-shot tasks and then exactly
the due periodic entries are handed to the executor, in discovery
order. -/
theorem tick_exec_trace (s : SchedState) (now : Nat) :
    (Scheduler.tick s now).exec_trace = s.exec_trace ++
      (overdueNames s now).map (fun n => (n, false)) ++
      (duePeriodic s now).map (fun q => (q.1, true)) := by
  rw [tick_as_pass, periodicPass_exec_trace, oneShotPass_exec_trace]
  rfl

/-- With unique task names, the task store after a tick is exactly the
store with every due Scheduled entry re-marked "overdue"; in particular
run_task never completes any of them, because they are no longer
"scheduled" by the time it is invoked. -/
theorem tick_tasks (s : SchedState) (now : Nat)
    (hN : (s.tasks.map Prod.fst).Nodup) :
    (Scheduler.tick s now).tasks = s.tasks.map (markOverdue now) := by
  have hhyp : ∀ n ∈ (TaskScheduler.check_overdue_tasks s.tasks now).1,
      ∀ u, ((TaskScheduler.check_overdue_tasks s.tasks now).2).lookup n =
        some u → u.status ≠ "scheduled" := by
    intro n hn u hu
    rw [check_overdue_spec] at hn hu
    simp only [] at hn hu
    obtain ⟨x, hx, hx1⟩ := List.mem_map.mp hn
    obtain ⟨a, b⟩ := x
    simp only [] at hx1
    subst hx1
    have hxmem : (a, b) ∈ s.tasks := List.mem_of_mem_filter hx
    have hdue : dueOneShot now (a, b) = true := List.of_mem_filter hx
    have hlk : s.tasks.lookup a = some b := nodup_lookup_of_mem hN hxmem
    rw [lookup_map_keyfix (markOverdue now) (markOverdue_fst now) s.tasks a,
      hlk] at hu
    have hu2 : (markOverdue now (a, b)).2 = u := Option.some.inj hu
    simp only [dueOneShot, decide_eq_true_eq] at hdue
    rw [← hu2]
    unfold markOverdue
    rw [if_pos hdue]
    simp
  rw [tick_as_pass, periodicPass_tasks_eq, oneShotPass_tasks_eq _ _ _ hhyp]
  show (TaskScheduler.check_overdue_tasks s.tasks now).2 =
    s.tasks.map (markOverdue now)
  rw [check_overdue_spec]

/-- A tick never changes the set (or order) of periodic task names. -/
theorem tick_periodic_keys (s : SchedState) (now : Nat) :
    (Scheduler.tick s now).periodic_tasks.map Prod.fst =
      s.periodic_tasks.map Prod.fst := by
  rw [tick_as_pass,
    periodicPass_keys _ _ now
      (fun x hx => by
        rw [tick_oneShot_state_periodic]
        exact List.mem_map.mpr ⟨x, hx, rfl⟩),
    tick_oneShot_state_periodic]

/-- A tick never stores an execution record (store_task_log is missing
from DataStorage). -/
theorem tick_task_logs (s : SchedState) (now : Nat) :
    (Scheduler.tick s now).task_logs = s.task_logs := by
  rw [tick_as_pass, periodicPass_task_logs_eq, oneShotPass_task_logs_eq]

/-- Processing a registry split around the entry of `p`, with `p` due:
the entry gets last_run := now and `p` fires exactly once, at `now`. -/
theorem periodicPass_point_fire (T : SchedState)
    (l1 l2 : List (String × PeriodicInfo)) (p : String)
    (info : PeriodicInfo) (now : Nat)
    (hp1 : p ∉ l1.map Prod.fst) (hp2 : p ∉ l2.map Prod.fst)
    (hT : T.periodic_tasks.lookup p = some info)
    (hd : info.last_run + info.interval ≤ now) :
    (Scheduler.periodicPass T (l1 ++ (p, info) :: l2)
      now).periodic_tasks.lookup p = some { info with last_run := now } ∧
    ∃ d, (Scheduler.periodicPass T (l1 ++ (p, info) :: l2) now).fired =
      T.fired ++ d ∧ firesOf d p = [now] := by
  rw [periodicPass_append, periodicPass_cons]
  obtain ⟨hA1, ⟨d1, hd1, hd1f⟩, _⟩ := periodicPass_notin T l1 now p hp1
  have hAlook : (Scheduler.periodicPass T l1 now).periodic_tasks.lookup p =
      some info := by rw [hA1]; exact hT
  have hB := periodicStep_due now (Scheduler.periodicPass T l1 now)
    (p, info) hd
  have hBlook : (Scheduler.periodicStep now
      (Scheduler.periodicPass T l1 now) (p, info)).periodic_tasks.lookup p =
      some { info with last_run := now } := by
    rw [hB]
    exact lookup_dictSet_self _ _ _
  have hBfired : (Scheduler.periodicStep now
      (Scheduler.periodicPass T l1 now) (p, info)).fired =
      (Scheduler.periodicPass T l1 now).fired ++ [(p, now)] := by
    rw [hB]
    exact execute_task_fired_of_found _ _ _ info hAlook
  obtain ⟨hC1, ⟨d2, hd2, hd2f⟩, _⟩ := periodicPass_notin
    (Scheduler.periodicStep now (Scheduler.periodicPass T l1 now) (p, info))
    l2 now p hp2
  refine ⟨by rw [hC1, hBlook], ⟨d1 ++ ([(p, now)] ++ d2), ?_, ?_⟩⟩
  · rw [hd2, hBfired, hd1]
    simp [List.append_assoc]
  · rw [firesOf_append, firesOf_append]
    rw [show firesOf d1 p = [] from by unfold firesOf; rw [hd1f]; rfl]
    rw [show firesOf d2 p = [] from by unfold firesOf; rw [hd2f]; rfl]
    simp [firesOf]

/-- Processing a registry split around the entry of `p`, with `p` not
yet due: the entry is untouched and `p` does not fire. -/
theorem periodicPass_point_skip (T : SchedState)
    (l1 l2 : List (String × PeriodicInfo)) (p : String)
    (info : PeriodicInfo) (now : Nat)
    (hp1 : p ∉ l1.map Prod.fst) (hp2 : p ∉ l2.map Prod.fst)
    (hT : T.periodic_tasks.lookup p = some info)
    (hd : ¬ info.last_run + info.interval ≤ now) :
    (Scheduler.periodicPass T (l1 ++ (p, info) :: l2)
      now).periodic_tasks.lookup p = some info ∧
    ∃ d, (Scheduler.periodicPass T (l1 ++ (p, info) :: l2) now).fired =
      T.fired ++ d ∧ firesOf d p = [] := by
  rw [periodicPass_append, periodicPass_cons]
  obtain ⟨hA1, ⟨d1, hd1, hd1f⟩, _⟩ := periodicPass_notin T l1 now p hp1
  have hstep : Scheduler.periodicStep now
      (Scheduler.periodicPass T l1 now) (p, info) =
      Scheduler.periodicPass T l1 now := periodicStep_not_due _ _ _ hd
  rw [hstep]
  obtain ⟨hC1, ⟨d2, hd2, hd2f⟩, _⟩ := periodicPass_notin
    (Scheduler.periodicPass T l1 now) l2 now p hp2
  refine ⟨by rw [hC1, hA1]; exact hT, ⟨d1 ++ d2, ?_, ?_⟩⟩
  · rw [hd2, hd1]
    simp [List.append_assoc]
  · rw [firesOf_append]
    rw [show firesOf d1 p = [] from by unfold firesOf; rw [hd1f]; rfl]
    rw [show firesOf d2 p = [] from by unfold firesOf; rw [hd2f]; rfl]
    rfl

/-- Per-tick behaviour of one registered periodic task that is due: its
action is invoked exactly once during the tick (at the tick time), and
its last_run is rewritten to the tick time. -/
theorem tick_periodic_fire (s : SchedState) (now : Nat) (p : String)
    (info : PeriodicInfo) (hN : (s.periodic_tasks.map Prod.fst).Nodup)
    (h : s.periodic_tasks.lookup p = some info)
    (hd : info.last_run + info.interval ≤ now) :
    (Scheduler.tick s now).periodic_tasks.lookup p =
      some { info with last_run := now } ∧
    ∃ d, (Scheduler.tick s now).fired = s.fired ++ d ∧
      firesOf d p = [now] := by
  obtain ⟨l1, l2, hsplit, hp1, hp2⟩ := nodup_decomp hN h
  rw [tick_as_pass]
  generalize hTstate : Scheduler.oneShotPass
      { s with tasks := (TaskScheduler.check_overdue_tasks s.tasks now).2 }
      (TaskScheduler.check_overdue_tasks s.tasks now).1 now = T
  have hTp : T.periodic_tasks.lookup p = some info := by
    rw [← hTstate, tick_oneShot_state_periodic]
    exact h
  have hTf : T.fired = s.fired := by
    rw [← hTstate, tick_oneShot_state_fired]
  rw [hsplit]
  obtain ⟨h1, d, hd2, hf⟩ :=
    periodicPass_point_fire T l1 l2 p info now hp1 hp2 hTp hd
  refine ⟨h1, d, ?_, hf⟩
  rw [hd2, hTf]

/-- Per-tick behaviour of one registered periodic task that is not yet
due: its entry is untouched and its action is not invoked. -/
theorem tick_periodic_skip (s : SchedState) (now : Nat) (p : String)
    (info : PeriodicInfo) (hN : (s.periodic_tasks.map Prod.fst).Nodup)
    (h : s.periodic_tasks.lookup p = some info)
    (hd : ¬ info.last_run + info.interval ≤ now) :
    (Scheduler.tick s now).periodic_tasks.lookup p = some info ∧
    ∃ d, (Scheduler.tick s now).fired = s.fired ++ d ∧
      firesOf d p = [] := by
  obtain ⟨l1, l2, hsplit, hp1, hp2⟩ := nodup_decomp hN h
  rw [tick_as_pass]
  generalize hTstate : Scheduler.oneShotPass
      { s with tasks := (TaskScheduler.check_overdue_tasks s.tasks now).2 }
      (TaskScheduler.check_overdue_tasks s.tasks now).1 now = T
  have hTp : T.periodic_tasks.lookup p = some info := by
    rw [← hTstate, tick_oneShot_state_periodic]
    exact h
  have hTf : T.fired = s.fired := by
    rw [← hTstate, tick_oneShot_state_fired]
  rw [hsplit]
  obtain ⟨h1, d, hd2, hf⟩ :=
    periodicPass_point_skip T l1 l2 p info now hp1 hp2 hTp hd
  refine ⟨h1, d, ?_, hf⟩
  rw [hd2, hTf]

/-!
## Result strings and single operations
-/

/-- Two result strings built from different fixed parts around the same
task name differ whenever the fixed parts have different total length. -/
theorem ne_of_parts_len {p1 s1 p2 s2 : String}
    (h : p1.length + s1.length ≠ p2.length + s2.length) (name : String) :
    p1 ++ name ++ s1 ≠ p2 ++ name ++ s2 := by
  intro he
  apply h
  have hl := congrArg String.length he
  rw [String.length_append, String.length_append, String.length_append,
    String.length_append] at hl
  omega

theorem run_task_none (tasks : List (String × Task)) (name : String)
    (h : tasks.lookup name = none) :
    TaskScheduler.run_task tasks name =
      (notFoundOrCompletedMsg name, tasks) := by
  unfold TaskScheduler.run_task
  rw [h]

theorem run_task_scheduled (tasks : List (String × Task)) (name : String)
    (u : Task) (h : tasks.lookup name = some u)
    (hs : u.status = "scheduled") :
    TaskScheduler.run_task tasks name =
      (successMsg name, dictSet tasks name { u with status := "completed" }) := by
  unfold TaskScheduler.run_task
  rw [h]
  show (if u.status = "scheduled" then
      (successMsg name, dictSet tasks name { u with status := "completed" })
    else (notFoundOrCompletedMsg name, tasks)) = _
  rw [if_pos hs]

theorem run_task_not_scheduled (tasks : List (String × Task)) (name : String)
    (u : Task) (h : tasks.lookup name = some u)
    (hs : u.status ≠ "scheduled") :
    TaskScheduler.run_task tasks name =
      (notFoundOrCompletedMsg name, tasks) := by
  unfold TaskScheduler.run_task
  rw [h]
  show (if u.status = "scheduled" then
      (successMsg name, dictSet tasks name { u with status := "completed" })
    else (notFoundOrCompletedMsg name, tasks)) = _
  rw [if_neg hs]

theorem cancel_task_present (tasks : List (String × Task)) (name : String)
    (h : (tasks.lookup name).isSome) :
    TaskScheduler.cancel_task tasks name =
      (canceledMsg name, dictDel tasks name) := by
  unfold TaskScheduler.cancel_task
  rw [if_pos h]

theorem cancel_task_absent (tasks : List (String × Task)) (name : String)
    (h : tasks.lookup name = none) :
    TaskScheduler.cancel_task tasks name = (notFoundMsg name, tasks) := by
  unfold TaskScheduler.cancel_task
  rw [if_neg (by simp [h])]

theorem sched_cancel_periodic (s : SchedState) (name : String)
    (h : (s.periodic_tasks.lookup name).isSome) :
    Scheduler.cancel_task s name =
      { s with periodic_tasks := dictDel s.periodic_tasks name,
               output := (s.output ++ [periodicCanceledMsg name]) } := by
  unfold Scheduler.cancel_task
  rw [if_pos h]

theorem sched_cancel_oneshot (s : SchedState) (name : String)
    (h : s.periodic_tasks.lookup name = none) :
    Scheduler.cancel_task s name =
      { s with tasks := (TaskScheduler.cancel_task s.tasks name).2,
               output := (s.output ++
                 [(TaskScheduler.cancel_task s.tasks name).1]) } := by
  unfold Scheduler.cancel_task
  rw [if_neg (by simp [h])]

/-!
## Error-sink behaviour of a tick with a raising periodic action
-/

/-- If the due periodic task `p` has a raising action, the tick appends
error-sink entries among which exactly one is the report of p's fault
(identity in the context string, the fault as payload). -/
theorem tick_error_of_raising (s : SchedState) (now : Nat) (p : String)
    (info : PeriodicInfo)
    (hN : (s.periodic_tasks.map Prod.fst).Nodup)
    (h : s.periodic_tasks.lookup p = some info)
    (hd : info.last_run + info.interval ≤ now)
    (hr : info.task_func_raises = true) :
    ∃ d, (Scheduler.tick s now).error_log = s.error_log ++ d ∧
      (d.filter (fun e => decide (e = (execErrorCtx p,
        some (PyError.actionError p))))).length = 1 := by
  obtain ⟨l1, l2, hsplit, hp1, hp2⟩ := nodup_decomp hN h
  rw [tick_as_pass]
  generalize hTstate : Scheduler.oneShotPass
      { s with tasks := (TaskScheduler.check_overdue_tasks s.tasks now).2 }
      (TaskScheduler.check_overdue_tasks s.tasks now).1 now = T
  have hTp : T.periodic_tasks.lookup p = some info := by
    rw [← hTstate, tick_oneShot_state_periodic]
    exact h
  have hTe : T.error_log = s.error_log ++ (overdueNames s now).map (fun n =>
      (execErrorCtx n, some (PyError.attributeError "store_task_log"))) := by
    rw [← hTstate, tick_oneShot_state_error]
  rw [hsplit, periodicPass_append, periodicPass_cons]
  obtain ⟨hA1, _, ⟨de1, hde1, hde1m⟩⟩ := periodicPass_notin T l1 now p hp1
  have hAlook : (Scheduler.periodicPass T l1 now).periodic_tasks.lookup p =
      some info := by rw [hA1]; exact hTp
  have hB := periodicStep_due now (Scheduler.periodicPass T l1 now)
    (p, info) hd
  have hBerr : (Scheduler.periodicStep now (Scheduler.periodicPass T l1 now)
      (p, info)).error_log =
      (Scheduler.periodicPass T l1 now).error_log ++
        [(execErrorCtx p, some (PyError.actionError p))] := by
    rw [hB, execute_task_periodic_raises _ _ _ _ hAlook hr]
  obtain ⟨_, _, ⟨de2, hde2, hde2m⟩⟩ := periodicPass_notin
    (Scheduler.periodicStep now (Scheduler.periodicPass T l1 now) (p, info))
    l2 now p hp2
  have hfos : (((overdueNames s now).map (fun n => (execErrorCtx n,
      some (PyError.attributeError "store_task_log")))).filter
      (fun e => decide (e = (execErrorCtx p,
        some (PyError.actionError p))))) = [] := by
    apply List.filter_eq_nil_iff.mpr
    intro e he
    obtain ⟨n, _, rfl⟩ := List.mem_map.mp he
    simp
  have hf1 : (de1.filter (fun e => decide (e = (execErrorCtx p,
      some (PyError.actionError p))))) = [] := by
    apply List.filter_eq_nil_iff.mpr
    intro e he hc
    have he2 : e = (execErrorCtx p, some (PyError.actionError p)) :=
      of_decide_eq_true hc
    obtain ⟨q, hq, heq⟩ := hde1m e he
    have hqp : q = p := execErrorCtx_inj (by rw [← heq, he2])
    exact hp1 (hqp ▸ hq)
  have hf2 : (de2.filter (fun e => decide (e = (execErrorCtx p,
      some (PyError.actionError p))))) = [] := by
    apply List.filter_eq_nil_iff.mpr
    intro e he hc
    have he2 : e = (execErrorCtx p, some (PyError.actionError p)) :=
      of_decide_eq_true hc
    obtain ⟨q, hq, heq⟩ := hde2m e he
    have hqp : q = p := execErrorCtx_inj (by rw [← heq, he2])
    exact hp2 (hqp ▸ hq)
  refine ⟨(overdueNames s now).map (fun n =>
      (execErrorCtx n, some (PyError.attributeError "store_task_log"))) ++
      de1 ++ [(execErrorCtx p, some (PyError.actionError p))] ++ de2,
    ?_, ?_⟩
  · rw [hde2, hBerr, hde1, hTe]
    simp [List.append_assoc]
  · rw [List.filter_append, List.filter_append, List.filter_append,
      hfos, hf1, hf2]
    simp

/-!
## Runs of the loop: periodic firing discipline across many ticks
-/

theorem runTicks_cons (s : SchedState) (now : Nat) (rest : List Nat) :
    Scheduler.runTicks s (now :: rest) =
      Scheduler.runTicks (Scheduler.tick s now) rest := rfl

/-- Across any run of ticks: the fires of a registered periodic task
form a chain in which each fire is at least `interval` after the
previous mark, and the entry's last_run always equals the last fire
(or the initial value); interval, action and details never change. -/
theorem runTicks_periodic_spec (times : List Nat) (s : SchedState)
    (p : String) (info : PeriodicInfo)
    (hN : (s.periodic_tasks.map Prod.fst).Nodup)
    (h : s.periodic_tasks.lookup p = some info) :
    ∃ d, (Scheduler.runTicks s times).fired = s.fired ++ d ∧
      (Scheduler.runTicks s times).periodic_tasks.lookup p =
        some ⟨info.interval, (firesOf d p).getLastD info.last_run,
              info.task_func_raises, info.details⟩ ∧
      List.Chain (fun a b => a + info.interval ≤ b) info.last_run
        (firesOf d p) := by
  induction times generalizing s info with
  | nil => exact ⟨[], by simp [Scheduler.runTicks], h, List.Chain.nil⟩
  | cons now rest ih =>
      rw [runTicks_cons]
      have hN2 : ((Scheduler.tick s now).periodic_tasks.map Prod.fst).Nodup := by
        rw [tick_periodic_keys]
        exact hN
      by_cases hd : info.last_run + info.interval ≤ now
      · obtain ⟨h1, d1, hf1, hfires1⟩ := tick_periodic_fire s now p info hN h hd
        obtain ⟨d2, hf2, hlook2, hchain2⟩ :=
          ih (Scheduler.tick s now) { info with last_run := now } hN2 h1
        refine ⟨d1 ++ d2, ?_, ?_, ?_⟩
        · rw [hf2, hf1, List.append_assoc]
        · rw [hlook2, firesOf_append, hfires1,
            show [now] ++ firesOf d2 p = now :: firesOf d2 p from rfl,
            List.getLastD_cons]
        · rw [firesOf_append, hfires1,
            show [now] ++ firesOf d2 p = now :: firesOf d2 p from rfl]
          exact List.Chain.cons hd hchain2
      · obtain ⟨h1, d1, hf1, hfires1⟩ := tick_periodic_skip s now p info hN h hd
        obtain ⟨d2, hf2, hlook2, hchain2⟩ :=
          ih (Scheduler.tick s now) info hN2 h1
        refine ⟨d1 ++ d2, ?_, ?_, ?_⟩
        · rw [hf2, hf1, List.append_assoc]
        · rw [hlook2, firesOf_append, hfires1, List.nil_append]
        · rw [firesOf_append, hfires1, List.nil_append]
          exact hchain2

/-!
## Claim theorems
-/

/-- C1: the claim fails on the code. A one-shot task "backup" scheduled
with run_time 0, already past at the first tick (now = 1), is marked
"overdue" by check_overdue_tasks, but run_task then refuses it because
its status is no longer "scheduled": after the tick the task is still in
the non-terminal status "overdue", the only printed result is the
not-found-or-already-completed string, nothing was executed or logged,
and a second tick (now = 2) does not touch the task again, so it never
reaches Completed or Failed. -/
theorem c1_overdue_task_never_terminal :
    (Scheduler.tick ⟨[("backup", ⟨0, [], "scheduled"⟩)], [], [], [], [], [], []⟩ 1).tasks
      = [("backup", ⟨0, [], "overdue"⟩)] ∧
    (Scheduler.tick ⟨[("backup", ⟨0, [], "scheduled"⟩)], [], [], [], [], [], []⟩ 1).output
      = [notFoundOrCompletedMsg "backup"] ∧
    (Scheduler.tick ⟨[("backup", ⟨0, [], "scheduled"⟩)], [], [], [], [], [], []⟩ 1).task_logs
      = [] ∧
    Scheduler.tick (Scheduler.tick ⟨[("backup", ⟨0, [], "scheduled"⟩)], [], [], [], [], [], []⟩ 1) 2
      = Scheduler.tick ⟨[("backup", ⟨0, [], "scheduled"⟩)], [], [], [], [], [], []⟩ 1 := by
  decide

/-- C2, counterexample: a periodic task "p" whose action raises, due at
the tick with now = 10. The fault is caught and reported to the error
sink with the task identity, but the resulting state carries no Failed
marking anywhere: the one-shot store is empty, and the periodic entry
(type PeriodicInfo, which has no status field at all) is unchanged
except for last_run. The claim's "sets that task's status to Failed"
does not happen. -/
theorem c2_counterexample :
    Scheduler.tick ⟨[], [("p", ⟨3, 0, true, []⟩)], [], [], [], [], []⟩ 10 =
      ⟨[], [("p", ⟨3, 10, true, []⟩)],
       [(execErrorCtx "p", some (PyError.actionError "p"))], [], [],
       [("p", true)], [("p", 10)]⟩ := by
  decide

/-- C4: the claim fails on the code. DataStorage defines no method
store_task_log, so the call in Scheduler.log_task_execution raises
AttributeError. For a successfully executed periodic task "q" (due at
now = 10), no execution record is stored (task_logs stays empty);
instead the AttributeError is caught and reported to the error sink. -/
theorem c4_store_task_log_never_called :
    (DataStorage.methods.contains "store_task_log") = false ∧
    Scheduler.tick ⟨[], [("q", ⟨3, 0, false, []⟩)], [], [], [], [], []⟩ 10 =
      ⟨[], [("q", ⟨3, 10, false, []⟩)],
       [(execErrorCtx "q", some (PyError.attributeError "store_task_log"))],
       [], [], [("q", true)], [("q", 10)]⟩ := by
  decide

/-- C5, counterexample: run_task returns the identical string for a name
that is not in the store at all and for a task that is already
completed, so a caller cannot tell the "not found" case from the
"already completed" case. -/
theorem c5_counterexample :
    (TaskScheduler.run_task [] "t").1 =
      (TaskScheduler.run_task [("t", ⟨0, [], "completed"⟩)] "t").1 ∧
    ((TaskScheduler.run_task [] "t").1 == successMsg "t") = false := by
  decide

/-- C6, counterexample: a Scheduled task whose run_time equals the
current time is NOT reported by check_overdue_tasks (the code compares
with strict <), is not transitioned to Overdue, and is not handed to
the executor in that tick. -/
theorem c6_counterexample_boundary :
    TaskScheduler.check_overdue_tasks [("b", ⟨5, [], "scheduled"⟩)] 5 =
      ([], [("b", ⟨5, [], "scheduled"⟩)]) ∧
    (Scheduler.tick ⟨[("b", ⟨5, [], "scheduled"⟩)], [], [], [], [], [], []⟩ 5).exec_trace
      = [] := by
  decide

/-- C8, counterexample: for the name "x" registered in BOTH registries,
the first cancel_task removes only the periodic entry and acknowledges,
and the immediately following second call cancels the one-shot entry
and acknowledges again instead of returning not-found. -/
theorem c8_counterexample_both_registries :
    (Scheduler.cancel_task (Scheduler.cancel_task
        ⟨[("x", ⟨5, [], "scheduled"⟩)], [("x", ⟨10, 0, false, []⟩)],
         [], [], [], [], []⟩ "x") "x").output =
      [periodicCanceledMsg "x", canceledMsg "x"] ∧
    (canceledMsg "x" == notFoundMsg "x") = false := by
  decide

/-- Cancelling a name absent from both registries only prints the
not-found message; every other field of the state is untouched. -/
theorem cancel_task_unknown (s : SchedState) (name : String)
    (hp : s.periodic_tasks.lookup name = none)
    (ht : s.tasks.lookup name = none) :
    Scheduler.cancel_task s name =
      { s with output := (s.output ++ [notFoundMsg name]) } := by
  rw [sched_cancel_oneshot s name hp, cancel_task_absent s.tasks name ht]

theorem markOverdue_not_due (now : Nat) (p : String × Task)
    (h : ¬(p.2.status = "scheduled" ∧ p.2.run_time < now)) :
    markOverdue now p = p := by
  unfold markOverdue
  rw [if_neg h]

/-- C2, amended: when the action of a registered periodic task raises,
the executor catches the fault (execute_task returns normally), reports
it to the error sink exactly once with the task's identity and the
fault, and leaves everything else — in particular every one-shot status
and the periodic registry — unchanged; no status is set to Failed (no
code path assigns a "failed" status, and periodic entries have no
status field at all). -/
theorem c2_amended_fault_isolated (s : SchedState) (name : String)
    (now : Nat) (info : PeriodicInfo)
    (h : s.periodic_tasks.lookup name = some info)
    (hr : info.task_func_raises = true) :
    Scheduler.execute_task s name true now =
      { s with exec_trace := s.exec_trace ++ [(name, true)],
               fired := s.fired ++ [(name, now)],
               error_log := (s.error_log ++
                 [(execErrorCtx name, some (PyError.actionError name))]) } :=
  execute_task_periodic_raises s name now info h hr

/-- C3: in a tick where the registered periodic task `p` is due and its
action raises, still every overdue one-shot task and every due periodic
entry is handed to the executor (in discovery order), and the new
error-sink entries contain exactly one report of p's fault. -/
theorem c3_failing_task_isolated (s : SchedState) (now : Nat) (p : String)
    (info : PeriodicInfo)
    (hN : (s.periodic_tasks.map Prod.fst).Nodup)
    (h : s.periodic_tasks.lookup p = some info)
    (hd : info.last_run + info.interval ≤ now)
    (hr : info.task_func_raises = true) :
    (Scheduler.tick s now).exec_trace = s.exec_trace ++
      (overdueNames s now).map (fun n => (n, false)) ++
      (duePeriodic s now).map (fun q => (q.1, true)) ∧
    (Scheduler.tick s now).error_log = s.error_log ++
      ((Scheduler.tick s now).error_log.drop s.error_log.length) ∧
    ((((Scheduler.tick s now).error_log.drop s.error_log.length).filter
      (fun e => decide (e = (execErrorCtx p,
        some (PyError.actionError p))))).length) = 1 := by
  obtain ⟨d, he, hcount⟩ := tick_error_of_raising s now p info hN h hd hr
  have hdrop : (Scheduler.tick s now).error_log.drop s.error_log.length = d := by
    rw [he]
    exact List.drop_left s.error_log d
  refine ⟨tick_exec_trace s now, ?_, ?_⟩
  · rw [hdrop]
    exact he
  · rw [hdrop]
    exact hcount

/-- C5, amended: the result strings distinguish success from
non-success: run_task returns the success acknowledgement exactly when
the task exists in status "scheduled", and otherwise the single string
that conflates "not found" with "already completed" (those two cases
are not distinguishable from each other); cancel_task distinguishes the
cancel acknowledgement from not-found; schedule_task always returns the
scheduled acknowledgement. -/
theorem c5_amended_result_strings (tasks : List (String × Task))
    (name : String) (rt : Nat) (details : List (String × String)) :
    ((TaskScheduler.run_task tasks name).1 = successMsg name ∨
     (TaskScheduler.run_task tasks name).1 = notFoundOrCompletedMsg name) ∧
    ((TaskScheduler.run_task tasks name).1 = successMsg name ↔
      ∃ u, tasks.lookup name = some u ∧ u.status = "scheduled") ∧
    successMsg name ≠ notFoundOrCompletedMsg name ∧
    (TaskScheduler.cancel_task tasks name).1 =
      (if (tasks.lookup name).isSome then canceledMsg name
       else notFoundMsg name) ∧
    canceledMsg name ≠ notFoundMsg name ∧
    (TaskScheduler.schedule_task tasks name rt details).1 =
      scheduledMsg name rt := by
  have hne1 : successMsg name ≠ notFoundOrCompletedMsg name :=
    ne_of_parts_len (by decide) name
  have hne2 : canceledMsg name ≠ notFoundMsg name :=
    ne_of_parts_len (by decide) name
  refine ⟨?_, ?_, hne1, ?_, hne2, rfl⟩
  · cases hl : tasks.lookup name with
    | none =>
        right
        rw [run_task_none tasks name hl]
    | some u =>
        by_cases hs : u.status = "scheduled"
        · left
          rw [run_task_scheduled tasks name u hl hs]
        · right
          rw [run_task_not_scheduled tasks name u hl hs]
  · constructor
    · intro hzz
      cases hl : tasks.lookup name with
      | none =>
          rw [run_task_none tasks name hl] at hzz
          exact absurd hzz.symm hne1
      | some u =>
          by_cases hs : u.status = "scheduled"
          · exact ⟨u, rfl, hs⟩
          · rw [run_task_not_scheduled tasks name u hl hs] at hzz
            exact absurd hzz.symm hne1
    · rintro ⟨u, hl, hs⟩
      rw [run_task_scheduled tasks name u hl hs]
  · cases hl : tasks.lookup name with
    | none => rw [cancel_task_absent tasks name hl, if_neg (by simp [hl])]
    | some u =>
        rw [cancel_task_present tasks name (by simp [hl]),
          if_pos (by simp [hl])]

/-- C6, amended: on each tick, exactly the Scheduled one-shot tasks with
run_time STRICTLY below the current time are transitioned to "overdue"
and handed to the executor in discovery order; a task with run_time
equal to the current time is not included (the code compares with <,
not ≤). -/
theorem c6_amended_strict_due (s : SchedState) (now : Nat)
    (hN : (s.tasks.map Prod.fst).Nodup) :
    overdueNames s now = (s.tasks.filter (dueOneShot now)).map Prod.fst ∧
    (Scheduler.tick s now).tasks = s.tasks.map (markOverdue now) ∧
    (Scheduler.tick s now).exec_trace = s.exec_trace ++
      (overdueNames s now).map (fun n => (n, false)) ++
      (duePeriodic s now).map (fun q => (q.1, true)) := by
  refine ⟨?_, tick_tasks s now hN, tick_exec_trace s now⟩
  unfold overdueNames
  rw [check_overdue_spec]

/-- C7: across any run of ticks, a registered periodic task with
interval I fires only in a tick whose observed time has reached
last_run + I; the fire times recorded for it form a chain in which each
fire is at least I after the previous mark (so any two consecutive
firings are at least I apart); last_run always equals the last fire
time (or its initial value, if the task never fired) and never
decreases; interval, action and details never change. -/
theorem c7_periodic_min_spacing (s : SchedState) (times : List Nat)
    (p : String) (info : PeriodicInfo)
    (hN : (s.periodic_tasks.map Prod.fst).Nodup)
    (h : s.periodic_tasks.lookup p = some info) :
    (Scheduler.runTicks s times).fired =
      s.fired ++ ((Scheduler.runTicks s times).fired.drop s.fired.length) ∧
    (Scheduler.runTicks s times).periodic_tasks.lookup p =
      some ⟨info.interval,
        (firesOf ((Scheduler.runTicks s times).fired.drop s.fired.length)
          p).getLastD info.last_run,
        info.task_func_raises, info.details⟩ ∧
    List.Chain (fun a b => a + info.interval ≤ b) info.last_run
      (firesOf ((Scheduler.runTicks s times).fired.drop s.fired.length) p) ∧
    info.last_run ≤
      (firesOf ((Scheduler.runTicks s times).fired.drop s.fired.length)
        p).getLastD info.last_run := by
  obtain ⟨d, hf, hlook, hchain⟩ := runTicks_periodic_spec times s p info hN h
  have hdrop : (Scheduler.runTicks s times).fired.drop s.fired.length = d := by
    rw [hf]
    exact List.drop_left s.fired d
  rw [hdrop]
  exact ⟨hf, hlook, hchain, le_getLastD_of_chain hchain⟩

/-- C8, amended: for a name present in exactly one of the two
registries, the first cancel_task removes the entry (afterwards the
name is in neither registry) and prints an acknowledgement distinct
from the not-found message, and the immediately following second call
only prints the not-found message, changing nothing else. (For a name
registered in both registries at once the second call still cancels the
one-shot entry and acknowledges; only a third call reports
not-found.) -/
theorem c8_amended_cancel_idempotent (s : SchedState) (name : String)
    (h : ((s.periodic_tasks.lookup name).isSome ∧
            s.tasks.lookup name = none) ∨
         (s.periodic_tasks.lookup name = none ∧
            (s.tasks.lookup name).isSome)) :
    (Scheduler.cancel_task s name).periodic_tasks.lookup name = none ∧
    (Scheduler.cancel_task s name).tasks.lookup name = none ∧
    (Scheduler.cancel_task s name).output = s.output ++
      [if (s.periodic_tasks.lookup name).isSome then
        periodicCanceledMsg name else canceledMsg name] ∧
    periodicCanceledMsg name ≠ notFoundMsg name ∧
    canceledMsg name ≠ notFoundMsg name ∧
    Scheduler.cancel_task (Scheduler.cancel_task s name) name =
      { (Scheduler.cancel_task s name) with output :=
          ((Scheduler.cancel_task s name).output ++ [notFoundMsg name]) } := by
  have hpn : periodicCanceledMsg name ≠ notFoundMsg name :=
    ne_of_parts_len (by decide) name
  have hcn : canceledMsg name ≠ notFoundMsg name :=
    ne_of_parts_len (by decide) name
  rcases h with ⟨hp, ht⟩ | ⟨hp, ht⟩
  · rw [sched_cancel_periodic s name hp]
    refine ⟨lookup_dictDel_self _ _, ht, by rw [if_pos hp], hpn, hcn, ?_⟩
    exact cancel_task_unknown _ name (lookup_dictDel_self _ _) ht
  · rw [sched_cancel_oneshot s name hp,
      cancel_task_present s.tasks name ht]
    refine ⟨hp, lookup_dictDel_self _ _, by rw [if_neg (by simp [hp])],
      hpn, hcn, ?_⟩
    exact cancel_task_unknown _ name hp (lookup_dictDel_self _ _)

/-- C9: cancelling a name registered in neither registry returns the
not-found message and leaves the whole state — in particular both the
one-shot store and the periodic registry — exactly as it was; only the
printed output grows by the not-found line. -/
theorem c9_cancel_unknown_frame (s : SchedState) (name : String)
    (hp : s.periodic_tasks.lookup name = none)
    (ht : s.tasks.lookup name = none) :
    Scheduler.cancel_task s name =
      { s with output := (s.output ++ [notFoundMsg name]) } :=
  cancel_task_unknown s name hp ht

/-- C10: check_overdue_tasks marks each past-due Scheduled task at most
once: a repeated call (at any time t2 at which no task that stayed
"scheduled" has newly become past-due) returns the empty list and
returns the store unchanged, because the first call left every formerly
due task in status "overdue", which the scan ignores. -/
theorem c10_check_overdue_idempotent (tasks : List (String × Task))
    (t1 t2 : Nat)
    (h : ∀ q ∈ tasks, q.2.status = "scheduled" → q.2.run_time < t2 →
      q.2.run_time < t1) :
    TaskScheduler.check_overdue_tasks
        (TaskScheduler.check_overdue_tasks tasks t1).2 t2 =
      ([], (TaskScheduler.check_overdue_tasks tasks t1).2) := by
  have hnot : ∀ q ∈ tasks,
      ¬((markOverdue t1 q).2.status = "scheduled" ∧
        (markOverdue t1 q).2.run_time < t2) := by
    intro q hq hc
    by_cases hd : q.2.status = "scheduled" ∧ q.2.run_time < t1
    · unfold markOverdue at hc
      rw [if_pos hd] at hc
      simp at hc
    · rw [markOverdue_not_due t1 q hd] at hc
      exact hd ⟨hc.1, h q hq hc.1 hc.2⟩
  rw [check_overdue_spec tasks t1]
  rw [show ((tasks.filter (dueOneShot t1)).map Prod.fst,
      tasks.map (markOverdue t1)).2 = tasks.map (markOverdue t1) from rfl]
  rw [check_overdue_spec (tasks.map (markOverdue t1)) t2]
  have hfilter : (tasks.map (markOverdue t1)).filter (dueOneShot t2) = [] := by
    apply List.filter_eq_nil_iff.mpr
    intro x hx hc
    obtain ⟨q, hq, rfl⟩ := List.mem_map.mp hx
    exact hnot q hq (by simpa [dueOneShot] using hc)
  have hmap : (tasks.map (markOverdue t1)).map (markOverdue t2) =
      tasks.map (markOverdue t1) := by
    rw [List.map_map]
    refine List.map_congr_left ?_
    intro q hq
    show markOverdue t2 (markOverdue t1 q) = markOverdue t1 q
    exact markOverdue_not_due t2 _ (hnot q hq)
  rw [hfilter, hmap]
  rfl

/-!
## Witnesses: the general theorems applied at concrete inputs
-/

/-- Witness for C2 (amended): the periodic task "p" with a raising
action, executed at time 10. -/
theorem c2_amended_witness :
    Scheduler.execute_task
        ⟨[], [("p", ⟨3, 0, true, []⟩)], [], [], [], [], []⟩ "p" true 10 =
      ⟨[], [("p", ⟨3, 0, true, []⟩)],
       [(execErrorCtx "p", some (PyError.actionError "p"))], [], [],
       [("p", true)], [("p", 10)]⟩ :=
  c2_amended_fault_isolated
    ⟨[], [("p", ⟨3, 0, true, []⟩)], [], [], [], [], []⟩ "p" 10
    ⟨3, 0, true, []⟩ rfl rfl

/-- Witness for C3: a tick at time 10 with one overdue one-shot task,
the raising periodic task "p", and two healthy periodic tasks around
it. -/
theorem c3_witness :
    (Scheduler.tick ⟨[("t", ⟨0, [], "scheduled"⟩)],
        [("a", ⟨2, 0, false, []⟩), ("p", ⟨3, 0, true, []⟩),
         ("b", ⟨1, 0, false, []⟩)], [], [], [], [], []⟩ 10).exec_trace =
      (overdueNames ⟨[("t", ⟨0, [], "scheduled"⟩)],
        [("a", ⟨2, 0, false, []⟩), ("p", ⟨3, 0, true, []⟩),
         ("b", ⟨1, 0, false, []⟩)], [], [], [], [], []⟩ 10).map
        (fun n => (n, false)) ++
      (duePeriodic ⟨[("t", ⟨0, [], "scheduled"⟩)],
        [("a", ⟨2, 0, false, []⟩), ("p", ⟨3, 0, true, []⟩),
         ("b", ⟨1, 0, false, []⟩)], [], [], [], [], []⟩ 10).map
        (fun q => (q.1, true)) ∧
    (Scheduler.tick ⟨[("t", ⟨0, [], "scheduled"⟩)],
        [("a", ⟨2, 0, false, []⟩), ("p", ⟨3, 0, true, []⟩),
         ("b", ⟨1, 0, false, []⟩)], [], [], [], [], []⟩ 10).error_log =
      ((Scheduler.tick ⟨[("t", ⟨0, [], "scheduled"⟩)],
        [("a", ⟨2, 0, false, []⟩), ("p", ⟨3, 0, true, []⟩),
         ("b", ⟨1, 0, false, []⟩)], [], [], [], [], []⟩ 10).error_log.drop 0) ∧
    ((((Scheduler.tick ⟨[("t", ⟨0, [], "scheduled"⟩)],
        [("a", ⟨2, 0, false, []⟩), ("p", ⟨3, 0, true, []⟩),
         ("b", ⟨1, 0, false, []⟩)], [], [], [], [], []⟩
        10).error_log.drop 0).filter
      (fun e => decide (e = (execErrorCtx "p",
        some (PyError.actionError "p"))))).length) = 1 :=
  c3_failing_task_isolated
    ⟨[("t", ⟨0, [], "scheduled"⟩)],
     [("a", ⟨2, 0, false, []⟩), ("p", ⟨3, 0, true, []⟩),
      ("b", ⟨1, 0, false, []⟩)], [], [], [], [], []⟩ 10 "p"
    ⟨3, 0, true, []⟩ (by decide) rfl (by decide) rfl

/-- Witness for C5 (amended): the store holding the scheduled task "t";
run_task acknowledges success, cancel_task acknowledges the cancel, the
acknowledgement strings differ from the failure strings, and
schedule_task acknowledges the registration. -/
theorem c5_amended_witness :
    ((TaskScheduler.run_task [("t", (⟨0, [], "scheduled"⟩ : Task))] "t").1 =
      successMsg "t") ∧
    ((successMsg "t" == notFoundOrCompletedMsg "t") = false) ∧
    ((TaskScheduler.cancel_task [("t", (⟨0, [], "scheduled"⟩ : Task))] "t").1 =
      canceledMsg "t") ∧
    ((canceledMsg "t" == notFoundMsg "t") = false) ∧
    ((TaskScheduler.schedule_task [("t", (⟨0, [], "scheduled"⟩ : Task))]
      "t" 7 []).1 = scheduledMsg "t" 7) := by
  obtain ⟨_, hiff, _, hc, _, hs⟩ := c5_amended_result_strings
    [("t", (⟨0, [], "scheduled"⟩ : Task))] "t" 7 []
  refine ⟨hiff.mpr ⟨⟨0, [], "scheduled"⟩, rfl, rfl⟩, by decide, ?_,
    by decide, hs⟩
  rw [hc]
  decide

/-- Witness for C6 (amended): two Scheduled tasks at a tick with
now = 5, one strictly past due, one exactly at the boundary. -/
theorem c6_amended_witness :
    overdueNames ⟨[("x", ⟨1, [], "scheduled"⟩), ("y", ⟨5, [], "scheduled"⟩)],
        [], [], [], [], [], []⟩ 5 =
      (([("x", (⟨1, [], "scheduled"⟩ : Task)),
         ("y", ⟨5, [], "scheduled"⟩)]).filter (dueOneShot 5)).map Prod.fst ∧
    (Scheduler.tick ⟨[("x", ⟨1, [], "scheduled"⟩),
        ("y", ⟨5, [], "scheduled"⟩)], [], [], [], [], [], []⟩ 5).tasks =
      ([("x", (⟨1, [], "scheduled"⟩ : Task)),
        ("y", ⟨5, [], "scheduled"⟩)]).map (markOverdue 5) ∧
    (Scheduler.tick ⟨[("x", ⟨1, [], "scheduled"⟩),
        ("y", ⟨5, [], "scheduled"⟩)], [], [], [], [], [], []⟩ 5).exec_trace =
      (overdueNames ⟨[("x", ⟨1, [], "scheduled"⟩),
        ("y", ⟨5, [], "scheduled"⟩)], [], [], [], [], [], []⟩ 5).map
        (fun n => (n, false)) ++
      (duePeriodic ⟨[("x", ⟨1, [], "scheduled"⟩),
        ("y", ⟨5, [], "scheduled"⟩)], [], [], [], [], [], []⟩ 5).map
        (fun q => (q.1, true)) :=
  c6_amended_strict_due
    ⟨[("x", ⟨1, [], "scheduled"⟩), ("y", ⟨5, [], "scheduled"⟩)],
     [], [], [], [], [], []⟩ 5 (by decide)

/-- Witness for C7: the periodic task "h" with interval 5 registered at
last_run 0, observed over ticks at times 3, 6, 8, 11 (it fires at 6 and
at 11, 5 apart). -/
theorem c7_witness :
    (Scheduler.runTicks ⟨[], [("h", ⟨5, 0, false, []⟩)],
        [], [], [], [], []⟩ [3, 6, 8, 11]).fired =
      ((Scheduler.runTicks ⟨[], [("h", ⟨5, 0, false, []⟩)],
        [], [], [], [], []⟩ [3, 6, 8, 11]).fired.drop 0) ∧
    (Scheduler.runTicks ⟨[], [("h", ⟨5, 0, false, []⟩)],
        [], [], [], [], []⟩ [3, 6, 8, 11]).periodic_tasks.lookup "h" =
      some ⟨5, (firesOf ((Scheduler.runTicks ⟨[], [("h", ⟨5, 0, false, []⟩)],
          [], [], [], [], []⟩ [3, 6, 8, 11]).fired.drop 0) "h").getLastD 0,
        false, []⟩ ∧
    List.Chain (fun a b => a + 5 ≤ b) 0
      (firesOf ((Scheduler.runTicks ⟨[], [("h", ⟨5, 0, false, []⟩)],
        [], [], [], [], []⟩ [3, 6, 8, 11]).fired.drop 0) "h") ∧
    0 ≤ (firesOf ((Scheduler.runTicks ⟨[], [("h", ⟨5, 0, false, []⟩)],
        [], [], [], [], []⟩ [3, 6, 8, 11]).fired.drop 0) "h").getLastD 0 :=
  c7_periodic_min_spacing
    ⟨[], [("h", ⟨5, 0, false, []⟩)], [], [], [], [], []⟩ [3, 6, 8, 11] "h"
    ⟨5, 0, false, []⟩ (by decide) rfl

/-- Witness for C8 (amended): the name "x" registered only as a
periodic task, cancelled twice. -/
theorem c8_amended_witness :
    (Scheduler.cancel_task ⟨[], [("x", ⟨10, 0, false, []⟩)],
        [], [], [], [], []⟩ "x").periodic_tasks.lookup "x" = none ∧
    (Scheduler.cancel_task ⟨[], [("x", ⟨10, 0, false, []⟩)],
        [], [], [], [], []⟩ "x").tasks.lookup "x" = none ∧
    (Scheduler.cancel_task ⟨[], [("x", ⟨10, 0, false, []⟩)],
        [], [], [], [], []⟩ "x").output = [periodicCanceledMsg "x"] ∧
    ((periodicCanceledMsg "x" == notFoundMsg "x") = false) ∧
    ((canceledMsg "x" == notFoundMsg "x") = false) ∧
    Scheduler.cancel_task (Scheduler.cancel_task
        ⟨[], [("x", ⟨10, 0, false, []⟩)], [], [], [], [], []⟩ "x") "x" =
      ⟨[], [], [], [], [periodicCanceledMsg "x", notFoundMsg "x"], [], []⟩ := by
  obtain ⟨a, b, c, _, _, f⟩ := c8_amended_cancel_idempotent
    ⟨[], [("x", ⟨10, 0, false, []⟩)], [], [], [], [], []⟩ "x" (by decide)
  refine ⟨a, b, ?_, by decide, by decide, ?_⟩
  · rw [c]
    decide
  · rw [f]
    decide

/-- Witness for C9: cancelling the unknown name "z" with one one-shot
and one periodic task registered. -/
theorem c9_witness :
    Scheduler.cancel_task ⟨[("a", ⟨1, [], "scheduled"⟩)],
        [("b", ⟨2, 0, false, []⟩)], [], [], [], [], []⟩ "z" =
      ⟨[("a", ⟨1, [], "scheduled"⟩)], [("b", ⟨2, 0, false, []⟩)],
       [], [], [notFoundMsg "z"], [], []⟩ :=
  c9_cancel_unknown_frame
    ⟨[("a", ⟨1, [], "scheduled"⟩)], [("b", ⟨2, 0, false, []⟩)],
     [], [], [], [], []⟩ "z" rfl rfl

/-- Witness for C10: two Scheduled tasks, one due at time 5; the scan
repeated at the same time reports nothing and changes nothing. -/
theorem c10_witness :
    TaskScheduler.check_overdue_tasks
        (TaskScheduler.check_overdue_tasks
          [("a", ⟨1, [], "scheduled"⟩), ("b", ⟨9, [], "scheduled"⟩)] 5).2 5 =
      ([], (TaskScheduler.check_overdue_tasks
          [("a", ⟨1, [], "scheduled"⟩), ("b", ⟨9, [], "scheduled"⟩)] 5).2) :=
  c10_check_overdue_idempotent
    [("a", ⟨1, [], "scheduled"⟩), ("b", ⟨9, [], "scheduled"⟩)] 5 5
    (by decide)

end Mia
